import Mathlib

/-!
Shallow embedding of the catalog-import and basket/order subsystem of the
`netology_pd_diplom` backend (`backend/views.py`), together with proofs of the
behavioural properties stated in the design specification.

The Catalog Store (Django tables) is modelled as lists of rows; primary keys
are explicit `Nat` ids handed out from a `nextId` counter.  Each endpoint of
`views.py` is translated into a pure function from a request and a store to a
new store plus a result value.  Django ORM operations are translated as:
`get_or_create` = find-first-or-append, `update_or_create`/`save` = update the
first row matching the business key, `filter(...).update(...)` = map over all
matching rows, `filter(...).delete()` = filter out matching rows,
`.distinct()` = list dedup.
-/

/-- A row of the Shop table (owned by one partner principal). -/
structure Shop where
  id : Nat
  name : String
  userId : Nat
  state : Bool
deriving DecidableEq, Repr

/-- A row of the Category table; the feed's category id is its primary key.
`shops` is the many-to-many link to Shop. -/
structure Category where
  id : Nat
  name : String
  shops : List Nat
deriving DecidableEq, Repr

/-- A row of the Product table. -/
structure Product where
  id : Nat
  name : String
  categoryId : Nat
deriving DecidableEq, Repr

/-- A row of the ProductInfo table: the per-shop listing of a product. -/
structure ProductInfo where
  id : Nat
  shopId : Nat
  externalId : Nat
  productId : Nat
  model : String
  price : Nat
  priceRrc : Nat
  quantity : Nat
deriving DecidableEq, Repr

/-- A row of the Parameter table (a global named attribute). -/
structure Parameter where
  id : Nat
  name : String
deriving DecidableEq, Repr

/-- A row of the ProductParameter join table. -/
structure ProductParameter where
  id : Nat
  productInfoId : Nat
  parameterId : Nat
  value : String
deriving DecidableEq, Repr

/-- A row of the Order table.  `state` is one of
basket/new/processing/shipped/delivered. -/
structure Order where
  id : Nat
  userId : Nat
  state : String
  contactId : Option Nat
deriving DecidableEq, Repr

/-- Modelled from the spec: `models.py` (the OrderItem model definition) is
not under `src/`; the spec's data model makes `quantity` a positive integer,
so the column is modelled as `Nat` and the store rejects any write of a
negative value (see `applyPairs`). -/
structure OrderItem where
  id : Nat
  orderId : Nat
  productInfoId : Nat
  quantity : Nat
deriving DecidableEq, Repr

/-- A row of the Contact table. -/
structure Contact where
  id : Nat
  userId : Nat
deriving DecidableEq, Repr

/-- The whole Catalog Store plus order data: one list per table and a fresh-id
counter standing for the database sequence. -/
structure Store where
  shops : List Shop
  categories : List Category
  products : List Product
  productInfos : List ProductInfo
  parameters : List Parameter
  productParameters : List ProductParameter
  orders : List Order
  orderItems : List OrderItem
  contacts : List Contact
  nextId : Nat
deriving DecidableEq, Repr

/-- The empty database. -/
def emptyStore : Store :=
  { shops := [], categories := [], products := [], productInfos := [],
    parameters := [], productParameters := [], orders := [], orderItems := [],
    contacts := [], nextId := 1 }

/-- Update the first element of a list satisfying `p` (Django `obj.save()` on
the row found by a unique business key). -/
def updateFirst (p : α → Bool) (f : α → α) : List α → List α
  | [] => []
  | x :: xs => if p x then f x :: xs else x :: updateFirst p f xs

/-- Read a run of decimal digits (accumulator form); `none` on the first
non-digit character. -/
def decDigitsAux : List Char → Nat → Option Nat
  | [], acc => some acc
  | c :: cs, acc => if c.isDigit then decDigitsAux cs (acc * 10 + (c.toNat - 48)) else none

/-- A non-empty all-digit character list, as a number. -/
def decDigits (cs : List Char) : Option Nat :=
  if cs.isEmpty then none else decDigitsAux cs 0

/-- Python's `str.isdigit()` followed by `int(...)`: succeeds exactly on a
non-empty all-digit string. -/
def strToNat (s : String) : Option Nat := decDigits s.data

/-- Python `int(str)` on a decimal string with an optional sign, as the ORM
applies it to values filtered against integer key columns. -/
def pyInt (s : String) : Option Int :=
  match s.data with
  | '-' :: cs => (decDigits cs).map (fun n => -(n : Int))
  | cs => (decDigits cs).map (fun n => (n : Int))

/-! ### Order endpoints (`OrderView` in views.py) -/

/-- The state values accepted by `OrderView.put`
(`['new', 'processing', 'shipped', 'delivered']` in views.py). -/
def allowedStates : List String := ["new", "processing", "shipped", "delivered"]

/-- Result of `OrderView.delete`. -/
inductive DelRes
  | deleted
  | cannotDeleteBasket
  | notFound
  | invalidId
deriving DecidableEq, Repr

/-- `OrderView.delete`: look up the order by `(id, user)`; refuse when its
state is `basket`, otherwise delete the row. -/
def orderDelete (s : Store) (uid : Nat) (oid : Option String) : Store × DelRes :=
  match oid with
  | some v =>
    match strToNat v with
    | some n =>
      match s.orders.find? (fun o => o.id == n && o.userId == uid) with
      | some o =>
        if o.state == "basket" then (s, .cannotDeleteBasket)
        else ({ s with orders := s.orders.filter (fun x => !(x.id == o.id)) }, .deleted)
      | none => (s, .notFound)
    | none => (s, .invalidId)
  | none => (s, .invalidId)

/-- Result of `OrderView.put`. -/
inductive PutRes
  | updated
  | invalidState
  | notFound
  | invalidId
deriving DecidableEq, Repr

/-- `OrderView.put`: fetch the order by `(id, user)`, optionally set the
contact, optionally set the state when it lies in `allowedStates` (any other
truthy value is rejected before saving), then save the row. -/
def orderPut (s : Store) (uid : Nat) (oid : Option String) (contact : Option Nat)
    (state : Option String) : Store × PutRes :=
  match oid with
  | some v =>
    match strToNat v with
    | some n =>
      match s.orders.find? (fun o => o.id == n && o.userId == uid) with
      | some o =>
        let o1 := match contact with
          | some c => if c == 0 then o else { o with contactId := some c }
          | none => o
        match state with
        | some st =>
          if st == "" then
            ({ s with orders := updateFirst (fun x => x.id == o.id) (fun _ => o1) s.orders }, .updated)
          else if st ∈ allowedStates then
            let o2 := { o1 with state := st }
            ({ s with orders := updateFirst (fun x => x.id == o.id) (fun _ => o2) s.orders }, .updated)
          else (s, .invalidState)
        | none =>
          ({ s with orders := updateFirst (fun x => x.id == o.id) (fun _ => o1) s.orders }, .updated)
      | none => (s, .notFound)
    | none => (s, .invalidId)
  | none => (s, .invalidId)

/-- Result of `OrderView.post` (checkout). -/
inductive SubmitRes
  | placed
  | integrityError
  | missingArgs
  | hardError
deriving DecidableEq, Repr

/-- Does a Contact row with this id exist (the foreign-key check the database
performs when `contact_id` is written)? -/
def contactValid (s : Store) (c : Int) : Bool :=
  s.contacts.any (fun ct => ((ct.id : Int) == c))

/-- `OrderView.post` (checkout): requires `id` and `contact` keys, a digit
`id`; runs one UPDATE setting `contact_id` and `state='new'` on the orders
matching `(user, id)`.  A contact value that is not an integer raises
(`hardError`); a missing Contact row raises `IntegrityError`, which the view
catches; zero matched rows fall through to the missing-arguments response. -/
def orderSubmit (s : Store) (uid : Nat) (oid contact : Option String) : Store × SubmitRes :=
  match oid, contact with
  | some iv, some cv =>
    match strToNat iv with
    | some n =>
      match pyInt cv with
      | some c =>
        if (s.orders.filter (fun o => o.userId == uid && o.id == n)).isEmpty then
          (s, .missingArgs)
        else if contactValid s c then
          let upd := fun (o : Order) =>
            if o.userId == uid && o.id == n then
              { o with contactId := some c.toNat, state := "new" } else o
          ({ s with orders := s.orders.map upd }, .placed)
        else (s, .integrityError)
      | none => (s, .hardError)
    | none => (s, .missingArgs)
  | _, _ => (s, .missingArgs)

/-! ### Basket endpoints (`BasketView` in views.py) -/

/-- `Order.objects.get_or_create(user_id=..., state='basket')`. -/
def getOrCreateBasket (uid : Nat) (s : Store) : Order × Store :=
  match s.orders.find? (fun o => o.userId == uid && o.state == "basket") with
  | some o => (o, s)
  | none =>
    let o : Order := ⟨s.nextId, uid, "basket", none⟩
    (o, { s with orders := s.orders ++ [o], nextId := s.nextId + 1 })

/-- A Python value carried in a parsed basket-update pair; the view tests
`type(x) == int` on each field. -/
inductive PyVal
  | pint (n : Int)
  | pstr (v : String)
deriving DecidableEq, Repr

/-- One `{id, quantity}` pair of the basket-update payload. -/
structure PutPair where
  id : PyVal
  quantity : PyVal
deriving DecidableEq, Repr

/-- The `items` argument of `BasketView.put` after `load_json`: absent/empty
(falsy), a non-empty string that fails to parse, or a parsed list. -/
inductive ItemsArg
  | absent
  | malformed
  | parsed (l : List PutPair)
deriving DecidableEq, Repr

/-- Result of the basket item endpoints.  `integrityError` is the uncaught
exception surfaced when an UPDATE violates a store constraint. -/
inductive BasketRes
  | okCount (n : Nat)
  | badFormat
  | missingArgs
  | integrityError
deriving DecidableEq, Repr

/-- The per-row effect of one applied `{id, quantity}` pair: rows of the
caller's basket whose id equals the pair's integer id get the new quantity. -/
def pairFun (bid : Nat) (i q : Int) (it : OrderItem) : OrderItem :=
  if it.orderId == bid && ((it.id : Int) == i) then { it with quantity := q.toNat } else it

/-- Outcome of the quantity-update loop: the rows after the applied updates,
the number of rows touched, and whether the loop aborted with an exception
(leaving the earlier updates in place). -/
structure PutOutcome where
  items : List OrderItem
  updated : Nat
  raised : Bool
deriving DecidableEq, Repr

/-- Modelled from the spec (the OrderItem model of `models.py` is not under
`src/`): the spec's data model makes `quantity` a positive integer, so the
store's check constraint rejects an UPDATE writing a negative quantity with
an `IntegrityError`.  One iteration per `{id, quantity}` pair, as in
`BasketView.put`: a pair whose `id` or `quantity` is not a Python int is
skipped; a negative-quantity UPDATE that matches at least one row raises,
aborting the loop while keeping earlier updates (each UPDATE statement is
atomic, and the view wraps the loop in no transaction); otherwise every row
matching `(order_id=basket.id, id=pair.id)` gets the new quantity. -/
def applyPairs (bid : Nat) : List PutPair → List OrderItem → Nat → PutOutcome
  | [], items, cnt => ⟨items, cnt, false⟩
  | pr :: rest, items, cnt =>
    match pr.id, pr.quantity with
    | .pint i, .pint q =>
      let matched := (items.filter (fun it => it.orderId == bid && ((it.id : Int) == i))).length
      if 0 < matched ∧ q < 0 then ⟨items, cnt, true⟩
      else applyPairs bid rest (items.map (pairFun bid i q)) (cnt + matched)
    | _, _ => applyPairs bid rest items cnt

/-- `BasketView.put`: on a parsed payload, get-or-create the basket, then run
the per-pair update loop over the caller's OrderItem rows. -/
def basketPut (s : Store) (uid : Nat) (items : ItemsArg) : Store × BasketRes :=
  match items with
  | .absent => (s, .missingArgs)
  | .malformed => (s, .badFormat)
  | .parsed l =>
    let bs := getOrCreateBasket uid s
    let res := applyPairs bs.1.id l bs.2.orderItems 0
    ({ bs.2 with orderItems := res.items },
      if res.raised then .integrityError else .okCount res.updated)

/-- `BasketView.delete`: on a truthy `items` string, split on commas,
get-or-create the basket, and delete the OrderItem rows of the basket whose id
equals one of the digit tokens; with no digit token the view falls through to
the missing-arguments response (the basket row, if created, persists). -/
def basketDelete (s : Store) (uid : Nat) (items : Option String) : Store × BasketRes :=
  match items with
  | some v =>
    if v == "" then (s, .missingArgs)
    else
      let toks := (v.splitOn ",").filter (fun t => (strToNat t).isSome)
      let bs := getOrCreateBasket uid s
      if toks.isEmpty then (bs.2, .missingArgs)
      else
        let hit := fun (it : OrderItem) => it.orderId == bs.1.id &&
          toks.any (fun t => strToNat t == some it.id)
        (({ bs.2 with orderItems := bs.2.orderItems.filter (fun it => !(hit it)) }),
          .okCount (bs.2.orderItems.filter hit).length)
  | none => (s, .missingArgs)

/-! ### Catalog listing (`ProductInfoView.get` in views.py) -/

/-- Parse one optional query filter the way the ORM does: a falsy value means
no filter; a truthy value must parse as an integer, otherwise evaluating the
queryset raises a field error. -/
def parseFilter (v : Option String) : Except String (Option Int) :=
  match v with
  | none => .ok none
  | some t =>
    if t == "" then .ok none
    else
      match pyInt t with
      | some n => .ok (some n)
      | none => .error "Field expected a number"

/-- The state of the shop a ProductInfo row joins to (`shop.state`); a row
with no shop is dropped by the join. -/
def shopStateOf (s : Store) (x : ProductInfo) : Bool :=
  match s.shops.find? (fun sh => sh.id == x.shopId) with
  | some sh => sh.state
  | none => false

/-- The WHERE clause of `ProductInfoView.get`: the listing row joins to a shop
with `state=True`, and satisfies the optional `shop_id` and
`product__category_id` equality filters. -/
def piMatches (s : Store) (sf cf : Option Int) (x : ProductInfo) : Bool :=
  shopStateOf s x
  && (match sf with
      | some n => ((x.shopId : Int) == n)
      | none => true)
  && (match cf with
      | some n =>
        (match s.products.find? (fun p => p.id == x.productId) with
         | some p => ((p.categoryId : Int) == n)
         | none => false)
      | none => true)

/-- `ProductInfoView.get`: always filter on `shop.state == True`, apply the
optional parsed filters, and de-duplicate (`.distinct()`). -/
def productList (s : Store) (shopIdArg categoryIdArg : Option String) :
    Except String (List ProductInfo) :=
  match parseFilter shopIdArg with
  | .error e => .error e
  | .ok sf =>
    match parseFilter categoryIdArg with
    | .error e => .error e
    | .ok cf => .ok ((s.productInfos.filter (piMatches s sf cf)).dedup)

/-! ### Import reconciler (`PartnerUpdate.post` in views.py) -/

/-- One entry of the feed's `categories` list. -/
structure FeedCategory where
  id : Nat
  name : String
deriving DecidableEq, Repr

/-- One entry of the feed's `goods` list.  Scalar fields are `Option` because
the parsed YAML mapping may lack a key, in which case the subscript raises
`KeyError` at the point of access. -/
structure FeedItem where
  id : Option Nat
  name : Option String
  category : Option Nat
  model : Option String
  price : Option Nat
  price_rrc : Option Nat
  quantity : Option Nat
  parameters : List (String × String)
deriving DecidableEq, Repr

/-- A parsed feed document. -/
structure FeedDoc where
  shop : String
  categories : List FeedCategory
  goods : List FeedItem
deriving DecidableEq, Repr

/-- Result of an import: either it ran to completion, or an exception escaped.
In both cases the carried store is the database content afterwards — the view
wraps nothing in a transaction, so writes made before an exception stay
committed. -/
inductive ImpRes
  | ok (s : Store)
  | err (s : Store) (msg : String)
deriving DecidableEq, Repr

/-- The database content after an import, whether or not it failed. -/
def ImpRes.store : ImpRes → Store
  | .ok s => s
  | .err s _ => s

/-- Did the import raise? -/
def ImpRes.failed : ImpRes → Bool
  | .ok _ => false
  | .err _ _ => true

/-- The Shop lookup key used by the import: `(name, user_id)` jointly. -/
def shopAt (s : Store) (uid : Nat) (nm : String) : Option Shop :=
  s.shops.find? (fun sh => sh.name == nm && sh.userId == uid)

/-- `Shop.objects.get_or_create(name=data['shop'], user_id=request.user.id)`.
The Shop model's `state` default is modelled as `true`. -/
def getOrCreateShop (uid : Nat) (nm : String) (s : Store) : Shop × Store :=
  match shopAt s uid nm with
  | some sh => (sh, s)
  | none =>
    let sh : Shop := ⟨s.nextId, nm, uid, true⟩
    (sh, { s with shops := s.shops ++ [sh], nextId := s.nextId + 1 })

/-- Add a shop to a category's many-to-many set (`category_object.shops.add`),
idempotently. -/
def addShopId (sid : Nat) (l : List Nat) : List Nat :=
  if sid ∈ l then l else l ++ [sid]

/-- One iteration of the categories loop:
`Category.objects.get_or_create(id=..., defaults={'name': ...})` — the name of
an existing category is not overwritten — followed by `shops.add(shop)`. -/
def importCategory (sid : Nat) (c : FeedCategory) (s : Store) : Store :=
  match s.categories.find? (fun k => k.id == c.id) with
  | some _ =>
    let f := fun (k : Category) => { k with shops := addShopId sid k.shops }
    { s with categories := updateFirst (fun k => k.id == c.id) f s.categories }
  | none => { s with categories := s.categories ++ [⟨c.id, c.name, [sid]⟩] }

/-- The categories loop. -/
def importCats (sid : Nat) : List FeedCategory → Store → Store
  | [], s => s
  | c :: cs, s => importCats sid cs (importCategory sid c s)

/-- `Product.objects.get_or_create(name=..., category_id=...)`. -/
def getOrCreateProduct (nm : String) (cat : Nat) (s : Store) : Product × Store :=
  match s.products.find? (fun p => p.name == nm && p.categoryId == cat) with
  | some p => (p, s)
  | none =>
    let p : Product := ⟨s.nextId, nm, cat⟩
    (p, { s with products := s.products ++ [p], nextId := s.nextId + 1 })

/-- The ProductInfo business key used by the import: `(shop, external_id)`. -/
def piKey (sid ext : Nat) (x : ProductInfo) : Bool :=
  x.shopId == sid && x.externalId == ext

/-- `ProductInfo.objects.update_or_create(shop=..., external_id=...,
defaults={...})`: full-replace semantics on the non-key fields. -/
def upsertProductInfo (sid ext pid : Nat) (mdl : String) (pr rrc qty : Nat)
    (s : Store) : ProductInfo × Store :=
  let f := fun (x : ProductInfo) =>
    { x with productId := pid, model := mdl, price := pr, priceRrc := rrc, quantity := qty }
  match s.productInfos.find? (piKey sid ext) with
  | some old =>
    (f old, { s with productInfos := updateFirst (piKey sid ext) f s.productInfos })
  | none =>
    let x : ProductInfo := ⟨s.nextId, sid, ext, pid, mdl, pr, rrc, qty⟩
    (x, { s with productInfos := s.productInfos ++ [x], nextId := s.nextId + 1 })

/-- `Parameter.objects.get_or_create(name=...)`. -/
def getOrCreateParameter (nm : String) (s : Store) : Parameter × Store :=
  match s.parameters.find? (fun q => q.name == nm) with
  | some q => (q, s)
  | none =>
    let q : Parameter := ⟨s.nextId, nm⟩
    (q, { s with parameters := s.parameters ++ [q], nextId := s.nextId + 1 })

/-- The ProductParameter business key: `(product_info, parameter)`. -/
def ppKey (pid qid : Nat) (x : ProductParameter) : Bool :=
  x.productInfoId == pid && x.parameterId == qid

/-- `ProductParameter.objects.update_or_create(product_info=..., parameter=...,
defaults={'value': ...})`. -/
def upsertProductParameter (pid qid : Nat) (v : String) (s : Store) : Store :=
  match s.productParameters.find? (ppKey pid qid) with
  | some _ =>
    let f := fun (x : ProductParameter) => { x with value := v }
    { s with productParameters := updateFirst (ppKey pid qid) f s.productParameters }
  | none =>
    let x : ProductParameter := ⟨s.nextId, pid, qid, v⟩
    { s with productParameters := s.productParameters ++ [x], nextId := s.nextId + 1 }

/-- One iteration of the inner parameters loop:
`Parameter.get_or_create(name)` then `ProductParameter.update_or_create`. -/
def importParam (pid : Nat) (nv : String × String) (s : Store) : Store :=
  let qs := getOrCreateParameter nv.1 s
  upsertProductParameter pid qs.1.id nv.2 qs.2

/-- The parameters loop of one goods entry. -/
def importParams (pid : Nat) : List (String × String) → Store → Store
  | [], s => s
  | nv :: l, s => importParams pid l (importParam pid nv s)

/-- One iteration of the goods loop, mirroring the order in which views.py
touches the item's keys: `name`/`category` are read (and the Product created)
before `id`/`model`/`price`/`price_rrc`/`quantity` are read for the
ProductInfo upsert; a missing key raises `KeyError` at that point, keeping all
writes already made. -/
def importItem (sid : Nat) (g : FeedItem) (s : Store) : ImpRes :=
  match g.name, g.category with
  | some nm, some cat =>
    let ps := getOrCreateProduct nm cat s
    match g.id, g.model, g.price, g.price_rrc, g.quantity with
    | some ext, some mdl, some pr, some rrc, some qty =>
      let pis := upsertProductInfo sid ext ps.1.id mdl pr rrc qty ps.2
      .ok (importParams pis.1.id g.parameters pis.2)
    | _, _, _, _, _ => .err ps.2 "KeyError: goods item"
  | _, _ => .err s "KeyError: goods item"

/-- The goods loop; the first exception aborts the remaining iterations. -/
def importGoods (sid : Nat) : List FeedItem → Store → ImpRes
  | [], s => .ok s
  | g :: gs, s =>
    match importItem sid g s with
    | .ok s1 => importGoods sid gs s1
    | .err s1 m => .err s1 m

/-- `PartnerUpdate.post` after a successful fetch and YAML parse: resolve the
shop by `(name, owner)`, run the categories loop, then the goods loop. -/
def importFeed (uid : Nat) (d : FeedDoc) (s : Store) : ImpRes :=
  importGoods (getOrCreateShop uid d.shop s).1.id d.goods
    (importCats (getOrCreateShop uid d.shop s).1.id d.categories
      (getOrCreateShop uid d.shop s).2)

/-- The six Catalog Store row counts the idempotence property speaks about. -/
def tableCounts (s : Store) : Nat × Nat × Nat × Nat × Nat × Nat :=
  (s.shops.length, s.categories.length, s.products.length,
   s.productInfos.length, s.parameters.length, s.productParameters.length)

/-! ### Concrete inputs used to exercise the theorems -/

/-- A buyer's store: one basket order with one item, plus a foreign row. -/
def demoBasketStore : Store :=
  { emptyStore with
    orders := [⟨1, 7, "basket", none⟩, ⟨2, 9, "basket", none⟩],
    orderItems := [⟨5, 1, 30, 2⟩, ⟨6, 2, 30, 4⟩],
    contacts := [⟨3, 7⟩] }

/-- A store holding one delivered order of buyer 7. -/
def deliveredStore : Store :=
  { emptyStore with orders := [⟨1, 7, "delivered", none⟩] }

/-- A store holding a basket order and a shipped order of buyer 7. -/
def twoOrderStore : Store :=
  { emptyStore with orders := [⟨1, 7, "basket", none⟩, ⟨2, 7, "shipped", none⟩] }

/-- A catalog with one active and one inactive shop, each listing one product. -/
def demoCatalogStore : Store :=
  { emptyStore with
    shops := [⟨1, "Active", 7, true⟩, ⟨2, "Dark", 8, false⟩],
    products := [⟨3, "Widget", 100⟩],
    productInfos := [⟨4, 1, 11, 3, "M1", 100, 120, 10⟩, ⟨5, 2, 12, 3, "M2", 90, 110, 4⟩] }

/-- A well-formed one-good feed document. -/
def demoDoc : FeedDoc :=
  { shop := "ShopA",
    categories := [⟨1, "Phones"⟩],
    goods := [{ id := some 123, name := some "Widget", category := some 1,
                model := some "M1", price := some 100, price_rrc := some 120,
                quantity := some 10, parameters := [("color", "red"), ("size", "L")] }] }

/-- A feed document whose second goods entry lacks the `price` key. -/
def badDoc : FeedDoc :=
  { shop := "ShopA",
    categories := [⟨1, "Phones"⟩],
    goods := [{ id := some 123, name := some "Widget", category := some 1,
                model := some "M1", price := some 100, price_rrc := some 120,
                quantity := some 10, parameters := [("color", "red")] },
              { id := some 124, name := some "Gadget", category := some 1,
                model := some "M2", price := none, price_rrc := some 150,
                quantity := some 3, parameters := [] }] }

/-- A minimal feed naming the shop `A`. -/
def docNameA : FeedDoc := { shop := "A", categories := [], goods := [] }

/-- The same owner's later feed naming the shop `B`. -/
def docNameB : FeedDoc := { shop := "B", categories := [], goods := [] }

/-- The store produced by importing `docNameA` for owner 1 into an empty
database. -/
def storeAfterA : Store := (importFeed 1 docNameA emptyStore).store

/-- The store produced by one import of `demoDoc` for owner 1 into an empty
database. -/
def storeAfterDemo : Store := (importFeed 1 demoDoc emptyStore).store

/-! ### Key-presence views of the Catalog Store

These record which business keys already resolve in a store; a second import
run of the same document finds every key it looks up, which is how the
idempotence property is proved. -/

/-- A Category row with this (feed-supplied) primary key exists. -/
def catPresent (s : Store) (cid : Nat) : Prop :=
  (s.categories.find? (fun k => k.id == cid)).isSome = true

/-- A Product row with this `(name, category)` business key exists. -/
def hasProduct (s : Store) (nm : String) (cat : Nat) : Prop :=
  (s.products.find? (fun p => p.name == nm && p.categoryId == cat)).isSome = true

/-- The row id of the first ProductInfo matching `(shop, external_id)`. -/
def piIdAt (s : Store) (sid ext : Nat) : Option Nat :=
  (s.productInfos.find? (piKey sid ext)).map (fun x => x.id)

/-- The row id of the first Parameter with this name. -/
def paramIdAt (s : Store) (nm : String) : Option Nat :=
  (s.parameters.find? (fun q => q.name == nm)).map (fun q => q.id)

/-- A ProductParameter row with this `(product_info, parameter)` key exists. -/
def hasPP (s : Store) (pid qid : Nat) : Prop :=
  (s.productParameters.find? (ppKey pid qid)).isSome = true

/-- Every lookup performed while importing one goods entry succeeds in `s`
(and the entry itself carries all required keys). -/
def ItemReady (sid : Nat) (s : Store) (g : FeedItem) : Prop :=
  ∃ nm cat ext mdl pr rrc qty,
    g.name = some nm ∧ g.category = some cat ∧ g.id = some ext ∧
    g.model = some mdl ∧ g.price = some pr ∧ g.price_rrc = some rrc ∧
    g.quantity = some qty ∧
    hasProduct s nm cat ∧
    ∃ pid, piIdAt s sid ext = some pid ∧
      ∀ nv ∈ g.parameters, ∃ qid, paramIdAt s nv.1 = some qid ∧ hasPP s pid qid

/-- The monotone facts every write of the import preserves: present keys stay
present and keep resolving to the same row ids. -/
def Preserves (s t : Store) : Prop :=
  (∀ uid nm sh, shopAt s uid nm = some sh → shopAt t uid nm = some sh) ∧
  (∀ cid, catPresent s cid → catPresent t cid) ∧
  (∀ nm cat, hasProduct s nm cat → hasProduct t nm cat) ∧
  (∀ sid ext pid, piIdAt s sid ext = some pid → piIdAt t sid ext = some pid) ∧
  (∀ nm qid, paramIdAt s nm = some qid → paramIdAt t nm = some qid) ∧
  (∀ pid qid, hasPP s pid qid → hasPP t pid qid)


/-! ### Generic list lemmas -/

theorem find?_append_some {p : α → Bool} {l : List α} {x : α}
    (h : l.find? p = some x) (t : List α) : (l ++ t).find? p = some x := by
  rw [List.find?_append, h]; rfl

theorem find?_append_none {p : α → Bool} {l : List α}
    (h : l.find? p = none) (t : List α) : (l ++ t).find? p = t.find? p := by
  rw [List.find?_append, h]; rfl

theorem length_updateFirst (p : α → Bool) (f : α → α) (l : List α) :
    (updateFirst p f l).length = l.length := by
  induction l with
  | nil => rfl
  | cons x xs ih =>
    by_cases hp : p x <;> simp [updateFirst, hp, ih]

theorem find?_updateFirst_map {β : Type} (p q : α → Bool) (f : α → α) (g : α → β)
    (hq : ∀ x, q (f x) = q x) (hg : ∀ x, g (f x) = g x) (l : List α) :
    ((updateFirst p f l).find? q).map g = (l.find? q).map g := by
  induction l with
  | nil => rfl
  | cons x xs ih =>
    by_cases hp : p x
    · simp only [updateFirst, if_pos hp]
      cases hqx : q x
      · rw [List.find?_cons_of_neg _ (by simp [hq, hqx]),
          List.find?_cons_of_neg _ (by simp [hqx])]
      · rw [List.find?_cons_of_pos _ (by simp [hq, hqx]),
          List.find?_cons_of_pos _ (by simp [hqx])]
        simp [hg]
    · simp only [updateFirst, if_neg hp]
      cases hqx : q x
      · rw [List.find?_cons_of_neg _ (by simp [hqx]),
          List.find?_cons_of_neg _ (by simp [hqx])]
        exact ih
      · rw [List.find?_cons_of_pos _ (by simp [hqx]),
          List.find?_cons_of_pos _ (by simp [hqx])]

theorem find?_updateFirst_isSome (p q : α → Bool) (f : α → α)
    (hq : ∀ x, q (f x) = q x) (l : List α) :
    ((updateFirst p f l).find? q).isSome = (l.find? q).isSome := by
  have h := find?_updateFirst_map p q f (fun _ => true) hq (fun _ => rfl) l
  cases h1 : (updateFirst p f l).find? q <;> cases h2 : l.find? q <;>
    simp [h1, h2] at h ⊢

theorem find?_updateFirst_self (p : α → Bool) (f : α → α)
    (hp : ∀ x, p (f x) = p x) {l : List α} {x : α} (h : l.find? p = some x) :
    (updateFirst p f l).find? p = some (f x) := by
  induction l with
  | nil => simp at h
  | cons a as ih =>
    cases hpa : p a
    · have h' : as.find? p = some x := by
        rwa [List.find?_cons_of_neg _ (by simp [hpa])] at h
      simp only [updateFirst, hpa, Bool.false_eq_true, if_neg, ite_false]
      rw [List.find?_cons_of_neg _ (by simp [hpa])]
      exact ih h'
    · have hx : a = x := by
        rw [List.find?_cons_of_pos _ (by simp [hpa])] at h
        exact Option.some.inj h
      subst hx
      simp only [updateFirst, hpa, if_pos, ite_true]
      rw [List.find?_cons_of_pos _ (by simp [hp, hpa])]

/-! ### C4: deleting orders -/

/-- Claim C4: deleting an order that is in `basket` state fails with the
normal `CannotDeleteActiveBasket` result and leaves the store (hence the row)
unchanged; deleting an order of the requester in any other state is permitted:
it reports `deleted` and removes exactly that row. -/
theorem orderDelete_basket_rules (s : Store) (uid n : Nat) (v : String) (o : Order)
    (hv : strToNat v = some n)
    (hfind : s.orders.find? (fun x => x.id == n && x.userId == uid) = some o) :
    (o.state = "basket" →
      orderDelete s uid (some v) = (s, .cannotDeleteBasket) ∧ o ∈ s.orders)
  ∧ (o.state ≠ "basket" →
      (orderDelete s uid (some v)).2 = .deleted ∧
      (orderDelete s uid (some v)).1.orders = s.orders.filter (fun x => !(x.id == o.id))) := by
  constructor
  · intro hb
    refine ⟨?_, List.mem_of_find?_eq_some hfind⟩
    simp [orderDelete, hv, hfind, hb]
  · intro hb
    have hbb : (o.state == "basket") = false := by
      simpa using hb
    simp [orderDelete, hv, hfind, hbb]

/-- Witness for C4 at a concrete store: the basket order survives with the
failure result, and the shipped order is deleted. -/
theorem orderDelete_basket_rules_witness :
    (orderDelete twoOrderStore 7 (some "1") = (twoOrderStore, .cannotDeleteBasket) ∧
      (⟨1, 7, "basket", none⟩ : Order) ∈ twoOrderStore.orders) ∧
    ((orderDelete twoOrderStore 7 (some "2")).2 = .deleted ∧
      (orderDelete twoOrderStore 7 (some "2")).1.orders =
        twoOrderStore.orders.filter (fun x => !(x.id == 2))) := by
  constructor
  · exact (orderDelete_basket_rules twoOrderStore 7 1 "1" ⟨1, 7, "basket", none⟩
      (by decide) (by decide)).1 (by decide)
  · exact (orderDelete_basket_rules twoOrderStore 7 2 "2" ⟨2, 7, "shipped", none⟩
      (by decide) (by decide)).2 (by decide)

/-! ### C5: order state transitions -/

/-- Counterexample to C5: `OrderView.put` never looks at the current state, so
a `delivered` order is moved back to `new` — the accepted update set is not
forward-only. -/
theorem orderPut_backwards_counterexample :
    orderPut deliveredStore 7 (some "1") none (some "new") =
      ({ deliveredStore with orders := [⟨1, 7, "new", none⟩] }, .updated) := by
  decide

/-- Claim C5 (amended): the allowed target set is exactly `allowedStates`; any
other truthy supplied value fails and leaves the store unchanged, and a
successful update either carried no truthy state or one of the allowed values
— but the current state is never consulted, so accepted updates need not move
forward in the chain. -/
theorem orderPut_state_rules (s : Store) (uid : Nat) (oid : Option String)
    (contact : Option Nat) :
    (∀ st : String, st ∉ allowedStates → st ≠ "" →
      (orderPut s uid oid contact (some st)).1 = s ∧
      (orderPut s uid oid contact (some st)).2 ≠ .updated)
  ∧ (∀ stArg : Option String, (orderPut s uid oid contact stArg).2 = .updated →
      stArg = none ∨ stArg = some "" ∨ ∃ t, stArg = some t ∧ t ∈ allowedStates) := by
  constructor
  · intro st hmem hne
    have hst : (st == "") = false := by simpa using hne
    match oid with
    | none => exact ⟨rfl, by simp [orderPut]⟩
    | some v =>
      match hm : strToNat v with
      | none => exact ⟨by simp [orderPut, hm], by simp [orderPut, hm]⟩
      | some n =>
        match hf : s.orders.find? (fun o => o.id == n && o.userId == uid) with
        | none => exact ⟨by simp [orderPut, hm, hf], by simp [orderPut, hm, hf]⟩
        | some o =>
          constructor
          · simp [orderPut, hm, hf, hst, hmem]
          · simp [orderPut, hm, hf, hst, hmem]
  · intro stArg hupd
    match stArg with
    | none => exact Or.inl rfl
    | some st =>
      by_cases hst : st = ""
      · exact Or.inr (Or.inl (by rw [hst]))
      · refine Or.inr (Or.inr ⟨st, rfl, ?_⟩)
        by_cases hmem : st ∈ allowedStates
        · exact hmem
        · exfalso
          have hstb : (st == "") = false := by simpa using hst
          match oid with
          | none => simp [orderPut] at hupd
          | some v =>
            match hm : strToNat v with
            | none => simp [orderPut, hm] at hupd
            | some n =>
              match hf : s.orders.find? (fun o => o.id == n && o.userId == uid) with
              | none => simp [orderPut, hm, hf] at hupd
              | some o => simp [orderPut, hm, hf, hstb, hmem] at hupd

/-- Witness for C5 (amended) at a concrete input: the bogus state value
`cancelled` is rejected and the store is untouched. -/
theorem orderPut_state_rules_witness :
    (orderPut deliveredStore 7 (some "1") none (some "cancelled")).1 = deliveredStore ∧
    (orderPut deliveredStore 7 (some "1") none (some "cancelled")).2 ≠ .updated :=
  (orderPut_state_rules deliveredStore 7 (some "1") none).1 "cancelled"
    (by decide) (by decide)

/-! ### C3: checkout -/

/-- Claim C3: checkout succeeds only when the targeted order belongs to the
requesting buyer and the supplied contact is a valid reference; on success the
matched order gets `state = new` and the contact together, and on any failure
the store — hence every basket order's state — is unchanged. -/
theorem orderSubmit_rules (s : Store) (uid : Nat) (oid contact : Option String) :
    ((orderSubmit s uid oid contact).2 = .placed →
      ∃ iv cv n c, oid = some iv ∧ contact = some cv ∧ strToNat iv = some n ∧
        pyInt cv = some c ∧ contactValid s c = true ∧
        (∃ o ∈ s.orders, o.userId = uid ∧ o.id = n) ∧
        (∀ o' ∈ (orderSubmit s uid oid contact).1.orders,
          o'.userId = uid → o'.id = n → o'.state = "new" ∧ o'.contactId = some c.toNat))
  ∧ ((orderSubmit s uid oid contact).2 ≠ .placed →
      (orderSubmit s uid oid contact).1 = s) := by
  match oid, contact with
  | none, _ =>
    refine ⟨fun h => ?_, fun _ => rfl⟩
    simp [orderSubmit] at h
  | some iv, none =>
    refine ⟨fun h => ?_, fun _ => rfl⟩
    simp [orderSubmit] at h
  | some iv, some cv =>
    match hm : strToNat iv with
    | none =>
      refine ⟨fun h => ?_, fun _ => by simp [orderSubmit, hm]⟩
      simp [orderSubmit, hm] at h
    | some n =>
      match hc : pyInt cv with
      | none =>
        refine ⟨fun h => ?_, fun _ => by simp [orderSubmit, hm, hc]⟩
        simp [orderSubmit, hm, hc] at h
      | some c =>
        by_cases hemp : (s.orders.filter (fun o => o.userId == uid && o.id == n)).isEmpty
        · refine ⟨fun h => ?_, fun _ => by simp [orderSubmit, hm, hc, hemp]⟩
          simp [orderSubmit, hm, hc, hemp] at h
        · by_cases hcv : contactValid s c
          · constructor
            · intro
              refine ⟨iv, cv, n, c, rfl, rfl, hm, hc, hcv, ?_, ?_⟩
              · have hne : s.orders.filter (fun o => o.userId == uid && o.id == n) ≠ [] := by
                  simpa [List.isEmpty_iff] using hemp
                obtain ⟨o, ho⟩ := List.exists_mem_of_ne_nil _ hne
                have := List.mem_filter.mp ho
                refine ⟨o, this.1, ?_, ?_⟩
                · have h2 := this.2
                  simp only [Bool.and_eq_true, beq_iff_eq] at h2
                  exact h2.1
                · have h2 := this.2
                  simp only [Bool.and_eq_true, beq_iff_eq] at h2
                  exact h2.2
              · intro o' ho' huid hid
                have hres : (orderSubmit s uid (some iv) (some cv)).1.orders =
                    s.orders.map (fun o =>
                      if o.userId == uid && o.id == n then
                        { o with contactId := some c.toNat, state := "new" } else o) := by
                  simp [orderSubmit, hm, hc, hemp, hcv]
                rw [hres] at ho'
                obtain ⟨o, _, rfl⟩ := List.mem_map.mp ho'
                by_cases hcond : (o.userId == uid && o.id == n) = true
                · simp [hcond]
                · exfalso
                  rw [if_neg hcond] at huid hid
                  exact hcond (by simp [huid, hid])
            · intro h
              exfalso
              exact h (by simp [orderSubmit, hm, hc, hemp, hcv])
          · refine ⟨fun h => ?_, fun _ => by simp [orderSubmit, hm, hc, hemp, hcv]⟩
            simp [orderSubmit, hm, hc, hemp, hcv] at h

/-- Witness for C3: a concrete successful checkout of buyer 7's basket order
with their contact 3. -/
theorem orderSubmit_rules_witness :
    ∃ iv cv n c, (some "1" : Option String) = some iv ∧
      (some "3" : Option String) = some cv ∧ strToNat iv = some n ∧
      pyInt cv = some c ∧ contactValid demoBasketStore c = true ∧
      (∃ o ∈ demoBasketStore.orders, o.userId = 7 ∧ o.id = n) ∧
      (∀ o' ∈ (orderSubmit demoBasketStore 7 (some "1") (some "3")).1.orders,
        o'.userId = 7 → o'.id = n → o'.state = "new" ∧ o'.contactId = some c.toNat) :=
  (orderSubmit_rules demoBasketStore 7 (some "1") (some "3")).1 (by decide)

/-! ### C6 and C10: basket item updates and lazy basket creation -/

theorem pairFun_foreign (bid : Nat) (i q : Int) (it : OrderItem)
    (h : it.orderId ≠ bid) : pairFun bid i q it = it := by
  unfold pairFun
  have hb : (it.orderId == bid) = false := by simpa using h
  simp [hb]

theorem pairFun_fields (bid : Nat) (i q : Int) (it : OrderItem) :
    (pairFun bid i q it).id = it.id ∧ (pairFun bid i q it).orderId = it.orderId ∧
    (pairFun bid i q it).productInfoId = it.productInfoId := by
  unfold pairFun
  by_cases h : (it.orderId == bid && ((it.id : Int) == i)) = true <;> simp [h]

theorem pairFun_change {bid : Nat} {i q : Int} {it : OrderItem}
    (h : pairFun bid i q it ≠ it) :
    (it.orderId == bid && ((it.id : Int) == i)) = true ∧
    (pairFun bid i q it).quantity = q.toNat := by
  unfold pairFun at h ⊢
  by_cases hc : (it.orderId == bid && ((it.id : Int) == i)) = true
  · simp [hc]
  · rw [if_neg hc] at h
    exact absurd rfl h

theorem applyPairs_spec (bid : Nat) (l : List PutPair) (items : List OrderItem)
    (cnt : Nat) :
    ∃ F : OrderItem → OrderItem,
      (applyPairs bid l items cnt).items = items.map F ∧
      (∀ it, it.orderId ≠ bid → F it = it) ∧
      (∀ it, (F it).id = it.id ∧ (F it).orderId = it.orderId ∧
        (F it).productInfoId = it.productInfoId) ∧
      (∀ it ∈ items, F it ≠ it → ∃ pr ∈ l, ∃ i q, pr.id = PyVal.pint i ∧
        pr.quantity = PyVal.pint q ∧ 0 ≤ q ∧ (F it).quantity = q.toNat) := by
  induction l generalizing items cnt with
  | nil =>
    refine ⟨fun it => it, by simp [applyPairs], fun _ _ => rfl,
      fun _ => ⟨rfl, rfl, rfl⟩, ?_⟩
    intro it _ h
    exact absurd rfl h
  | cons pr rest ih =>
    rw [applyPairs]
    cases hi : pr.id with
    | pstr v =>
      dsimp only
      obtain ⟨F, hmap, hfor, hfld, hch⟩ := ih items cnt
      refine ⟨F, hmap, hfor, hfld, ?_⟩
      intro it hmem h
      obtain ⟨pr2, hpr2, w⟩ := hch it hmem h
      exact ⟨pr2, List.mem_cons_of_mem _ hpr2, w⟩
    | pint i =>
      cases hqv : pr.quantity with
      | pstr v =>
        dsimp only
        obtain ⟨F, hmap, hfor, hfld, hch⟩ := ih items cnt
        refine ⟨F, hmap, hfor, hfld, ?_⟩
        intro it hmem h
        obtain ⟨pr2, hpr2, w⟩ := hch it hmem h
        exact ⟨pr2, List.mem_cons_of_mem _ hpr2, w⟩
      | pint q =>
        dsimp only
        by_cases hneg : 0 < (items.filter
            (fun it => it.orderId == bid && ((it.id : Int) == i))).length ∧ q < 0
        · rw [if_pos hneg]
          refine ⟨fun it => it, by simp, fun _ _ => rfl,
            fun _ => ⟨rfl, rfl, rfl⟩, ?_⟩
          intro it _ h
          exact absurd rfl h
        · rw [if_neg hneg]
          obtain ⟨F, hmap, hfor, hfld, hch⟩ :=
            ih (items.map (pairFun bid i q))
              (cnt + (items.filter
                (fun it => it.orderId == bid && ((it.id : Int) == i))).length)
          refine ⟨fun it => F (pairFun bid i q it), ?_, ?_, ?_, ?_⟩
          · rw [hmap, List.map_map]
            rfl
          · intro it hit
            show F (pairFun bid i q it) = it
            rw [pairFun_foreign bid i q it hit]
            exact hfor it hit
          · intro it
            have h1 := pairFun_fields bid i q it
            have h2 := hfld (pairFun bid i q it)
            exact ⟨h2.1.trans h1.1, h2.2.1.trans h1.2.1, h2.2.2.trans h1.2.2⟩
          · intro it hmem h
            have h2 : F (pairFun bid i q it) ≠ it := h
            show ∃ pr2 ∈ pr :: rest, ∃ i2 q2, pr2.id = PyVal.pint i2 ∧
              pr2.quantity = PyVal.pint q2 ∧ 0 ≤ q2 ∧
              (F (pairFun bid i q it)).quantity = q2.toNat
            by_cases hg : pairFun bid i q it = it
            · rw [hg] at h2 ⊢
              obtain ⟨pr2, hpr2, w⟩ := hch it (List.mem_map.mpr ⟨it, hmem, hg⟩) h2
              exact ⟨pr2, List.mem_cons_of_mem _ hpr2, w⟩
            · have hcg := pairFun_change hg
              have hmatched : 0 < (items.filter
                  (fun it => it.orderId == bid && ((it.id : Int) == i))).length := by
                have : it ∈ items.filter
                    (fun it => it.orderId == bid && ((it.id : Int) == i)) :=
                  List.mem_filter.mpr ⟨hmem, hcg.1⟩
                exact List.length_pos.mpr (List.ne_nil_of_mem this)
              have hq0 : 0 ≤ q := by
                by_contra hlt
                exact hneg ⟨hmatched, by omega⟩
              by_cases hF : F (pairFun bid i q it) = pairFun bid i q it
              · refine ⟨pr, List.mem_cons_self _ _, i, q, hi, hqv, hq0, ?_⟩
                rw [hF]
                exact hcg.2
              · obtain ⟨pr2, hpr2, w⟩ :=
                  hch (pairFun bid i q it) (List.mem_map.mpr ⟨it, hmem, rfl⟩) hF
                exact ⟨pr2, List.mem_cons_of_mem _ hpr2, w⟩

theorem getOrCreateBasket_spec (uid : Nat) (s : Store) :
    (getOrCreateBasket uid s).1.userId = uid ∧
    (getOrCreateBasket uid s).1.state = "basket" ∧
    (getOrCreateBasket uid s).1 ∈ (getOrCreateBasket uid s).2.orders ∧
    (getOrCreateBasket uid s).2.orderItems = s.orderItems ∧
    (getOrCreateBasket uid s).2.contacts = s.contacts := by
  unfold getOrCreateBasket
  cases hf : s.orders.find? (fun o => o.userId == uid && o.state == "basket") with
  | some o =>
    have hp := List.find?_some hf
    simp only [Bool.and_eq_true, beq_iff_eq] at hp
    exact ⟨hp.1, hp.2, List.mem_of_find?_eq_some hf, rfl, rfl⟩
  | none =>
    refine ⟨rfl, rfl, ?_, rfl, rfl⟩
    simp

/-- Claim C6: a `{id, quantity}` pair of `BasketView.put` is applied only if
its quantity is a non-negative integer — the view's `type(...) == int` gate
skips non-int fields, and the store's positive-integer constraint on
`OrderItem.quantity` (modelled from the spec, `models.py` being absent from
`src/`) makes a matching negative-quantity UPDATE raise instead of apply —
and the whole update is a per-row rewrite scoped to the requesting buyer's
own basket: rows of any other order are untouched, and no row's id, order or
product ever changes. -/
theorem basketPut_quantity_rules (s : Store) (uid : Nat) (l : List PutPair) :
    (getOrCreateBasket uid s).1.userId = uid ∧
    (getOrCreateBasket uid s).1.state = "basket" ∧
    ∃ F : OrderItem → OrderItem,
      (basketPut s uid (.parsed l)).1.orderItems = s.orderItems.map F ∧
      (∀ it : OrderItem, it.orderId ≠ (getOrCreateBasket uid s).1.id → F it = it) ∧
      (∀ it : OrderItem, (F it).id = it.id ∧ (F it).orderId = it.orderId ∧
        (F it).productInfoId = it.productInfoId) ∧
      (∀ it ∈ s.orderItems, F it ≠ it → ∃ pr ∈ l, ∃ i q, pr.id = PyVal.pint i ∧
        pr.quantity = PyVal.pint q ∧ 0 ≤ q ∧ (F it).quantity = q.toNat) := by
  have hspec := getOrCreateBasket_spec uid s
  have hoi : (getOrCreateBasket uid s).2.orderItems = s.orderItems := hspec.2.2.2.1
  obtain ⟨F, hmap, hfor, hfld, hch⟩ :=
    applyPairs_spec (getOrCreateBasket uid s).1.id l
      (getOrCreateBasket uid s).2.orderItems 0
  refine ⟨hspec.1, hspec.2.1, F, ?_, hfor, hfld, ?_⟩
  · show (basketPut s uid (.parsed l)).1.orderItems = _
    simp only [basketPut]
    rw [hmap, hoi]
  · intro it hmem h
    exact hch it (by rw [hoi]; exact hmem) h

/-- Witness for C6 at a concrete input: buyer 7 sends the pair
`{id: 5, quantity: -3}`; the negative quantity is not applied — every
OrderItem row, including item 5 of their basket, is left unchanged. -/
theorem basketPut_quantity_rules_witness :
    (basketPut demoBasketStore 7 (.parsed [⟨.pint 5, .pint (-3)⟩])).1.orderItems
      = demoBasketStore.orderItems := by
  obtain ⟨huid, hst, F, hmap, hfor, hfld, hch⟩ :=
    basketPut_quantity_rules demoBasketStore 7 [⟨.pint 5, .pint (-3)⟩]
  rw [hmap]
  have h1 : F ⟨5, 1, 30, 2⟩ = ⟨5, 1, 30, 2⟩ := by
    by_cases h : F ⟨5, 1, 30, 2⟩ = ⟨5, 1, 30, 2⟩
    · exact h
    · obtain ⟨pr, hpr, i, q, hid, hq, hq0, _⟩ := hch ⟨5, 1, 30, 2⟩ (by decide) h
      rw [List.mem_singleton] at hpr
      subst hpr
      have hq3 : (-3 : Int) = q := PyVal.pint.inj hq
      rw [← hq3] at hq0
      exact absurd hq0 (by decide)
  have h2 : F ⟨6, 2, 30, 4⟩ = ⟨6, 2, 30, 4⟩ := hfor _ (by decide)
  show List.map F [⟨5, 1, 30, 2⟩, ⟨6, 2, 30, 4⟩] = [⟨5, 1, 30, 2⟩, ⟨6, 2, 30, 4⟩]
  rw [List.map_cons, List.map_cons, List.map_nil, h1, h2]

/-- Counterexample to C10: a non-empty `items` argument that is not valid
JSON makes `BasketView.put` return before `get_or_create`, so no basket
order row is created for the buyer. -/
theorem basketPut_malformed_counterexample :
    basketPut emptyStore 1 .malformed = (emptyStore, .badFormat) ∧
    (basketPut emptyStore 1 .malformed).1.orders = [] := by
  constructor <;> decide

/-- Claim C10 (amended): a basket remove with any truthy `items` string, and a
basket quantity-update whose payload parses as JSON, both get-or-create the
buyer's basket order — afterwards a `basket`-state order of the buyer exists
even when zero items were removed or updated; only a quantity-update payload
that fails to parse skips the creation. -/
theorem basket_lazy_create (s : Store) (uid : Nat) (v : String) (l : List PutPair)
    (hv : v ≠ "") :
    (∃ o ∈ (basketDelete s uid (some v)).1.orders, o.userId = uid ∧ o.state = "basket")
  ∧ (∃ o ∈ (basketPut s uid (.parsed l)).1.orders, o.userId = uid ∧ o.state = "basket") := by
  have hspec := getOrCreateBasket_spec uid s
  have hvb : (v == "") = false := by simpa using hv
  constructor
  · refine ⟨(getOrCreateBasket uid s).1, ?_, hspec.1, hspec.2.1⟩
    simp only [basketDelete, hvb]
    by_cases ht : ((v.splitOn ",").filter (fun t => (strToNat t).isSome)).isEmpty
    · simp only [ht, if_true, Bool.false_eq_true, if_false]
      exact hspec.2.2.1
    · simp only [ht, Bool.false_eq_true, if_false]
      exact hspec.2.2.1
  · refine ⟨(getOrCreateBasket uid s).1, ?_, hspec.1, hspec.2.1⟩
    simp only [basketPut]
    exact hspec.2.2.1

/-- Witness for C10 (amended): buyer 1 of an empty store sends a remove with
no valid token and an update with an empty list; in both cases an (empty)
basket order appears. -/
theorem basket_lazy_create_witness :
    (∃ o ∈ (basketDelete emptyStore 1 (some "abc")).1.orders,
      o.userId = 1 ∧ o.state = "basket")
  ∧ (∃ o ∈ (basketPut emptyStore 1 (.parsed [])).1.orders,
      o.userId = 1 ∧ o.state = "basket") :=
  basket_lazy_create emptyStore 1 "abc" [] (by decide)

/-! ### C8 and C9: catalog listing -/

/-- Claim C8: every ProductInfo row a successful catalog listing returns
joins to a shop whose `state` is true, and the returned list holds no
duplicate row. -/
theorem productList_active_nodup (s : Store) (a b : Option String)
    (l : List ProductInfo) (h : productList s a b = .ok l) :
    (∀ x ∈ l, shopStateOf s x = true) ∧ l.Nodup := by
  unfold productList at h
  cases hpa : parseFilter a with
  | error e => rw [hpa] at h; exact absurd h (by simp)
  | ok sf =>
    cases hpb : parseFilter b with
    | error e => rw [hpa, hpb] at h; exact absurd h (by simp)
    | ok cf =>
      rw [hpa, hpb] at h
      have hl : l = (s.productInfos.filter (piMatches s sf cf)).dedup := by
        exact (Except.ok.inj h).symm
      subst hl
      refine ⟨?_, List.nodup_dedup _⟩
      intro x hx
      have hx' := List.mem_filter.mp (List.mem_dedup.mp hx)
      have hm := hx'.2
      unfold piMatches at hm
      simp only [Bool.and_eq_true] at hm
      exact hm.1.1

/-- Witness for C8: the demo catalog listing returns exactly the active
shop's row, active and duplicate-free. -/
theorem productList_active_nodup_witness :
    (∀ x ∈ [(⟨4, 1, 11, 3, "M1", 100, 120, 10⟩ : ProductInfo)],
      shopStateOf demoCatalogStore x = true) ∧
    ([(⟨4, 1, 11, 3, "M1", 100, 120, 10⟩ : ProductInfo)]).Nodup :=
  productList_active_nodup demoCatalogStore none none
    [⟨4, 1, 11, 3, "M1", 100, 120, 10⟩] (by rfl)

/-- Counterexample to C9: a `shop_id` — and likewise a `category_id` — that
does not parse as an integer makes the listing raise a field error; it does
not yield an empty result set. -/
theorem productList_parse_error_counterexample :
    productList demoCatalogStore (some "abc") none =
      .error "Field expected a number" ∧
    productList demoCatalogStore none (some "abc") =
      .error "Field expected a number" :=
  ⟨rfl, rfl⟩

/-- Claim C9 (amended): a truthy `shop_id` or `category_id` value that does
not parse as an integer makes the listing fail with a field error rather
than return empty; a value of either filter that parses but matches no row
yields the empty list without erroring. -/
theorem productList_parse_rules (s : Store) (v : String) (hv : v ≠ "") :
    (pyInt v = none → ∀ b, ∃ msg, productList s (some v) b = .error msg)
  ∧ (pyInt v = none → ∀ a sf, parseFilter a = .ok sf →
      ∃ msg, productList s a (some v) = .error msg)
  ∧ (∀ n : Int, pyInt v = some n →
      (∀ x ∈ s.productInfos, (((x.shopId : Int)) == n) = false) →
      productList s (some v) none = .ok [])
  ∧ (∀ n : Int, pyInt v = some n →
      (∀ p ∈ s.products, (((p.categoryId : Int)) == n) = false) →
      productList s none (some v) = .ok []) := by
  have hvb : (v == "") = false := by simpa using hv
  refine ⟨?_, ?_, ?_, ?_⟩
  · intro hp b
    refine ⟨"Field expected a number", ?_⟩
    simp [productList, parseFilter, hvb, hp]
  · intro hp a sf ha
    refine ⟨"Field expected a number", ?_⟩
    unfold productList
    rw [ha]
    simp [parseFilter, hvb, hp]
  · intro n hp hnone
    have hfil : s.productInfos.filter (piMatches s (some n) none) = [] := by
      rw [List.filter_eq_nil_iff]
      intro x hx
      unfold piMatches
      simp [hnone x hx]
    simp [productList, parseFilter, hvb, hp, hfil]
  · intro n hp hnone
    have hfil : s.productInfos.filter (piMatches s none (some n)) = [] := by
      rw [List.filter_eq_nil_iff]
      intro x hx
      unfold piMatches
      cases hfp : s.products.find? (fun p => p.id == x.productId) with
      | none => simp [hfp]
      | some p =>
        have hmem := List.mem_of_find?_eq_some hfp
        simp [hfp, hnone p hmem]
    simp [productList, parseFilter, hvb, hp, hfil]

/-- Witness for C9 (amended), exercising all four parts on the demo catalog:
non-parsing `shop_id` and `category_id` values raise, and parseable values
matching nothing (no shop 9, no category 9) return the empty list. -/
theorem productList_parse_rules_witness :
    (∃ msg, productList demoCatalogStore (some "abc") none = .error msg) ∧
    (∃ msg, productList demoCatalogStore (some "1") (some "abc") = .error msg) ∧
    productList demoCatalogStore (some "9") none = .ok [] ∧
    productList demoCatalogStore none (some "9") = .ok [] :=
  ⟨(productList_parse_rules demoCatalogStore "abc" (by decide)).1 (by decide) none,
   (productList_parse_rules demoCatalogStore "abc" (by decide)).2.1 (by decide)
     (some "1") (some 1) (by rfl),
   (productList_parse_rules demoCatalogStore "9" (by decide)).2.2.1 9
     (by decide) (by decide),
   (productList_parse_rules demoCatalogStore "9" (by decide)).2.2.2 9
     (by decide) (by decide)⟩

/-! ### Frame lemmas for the import reconciler -/

theorem importCategory_shops (sid : Nat) (c : FeedCategory) (s : Store) :
    (importCategory sid c s).shops = s.shops := by
  unfold importCategory; split <;> rfl

theorem importCats_shops (sid : Nat) (cs : List FeedCategory) (s : Store) :
    (importCats sid cs s).shops = s.shops := by
  induction cs generalizing s with
  | nil => rfl
  | cons c cs ih => rw [importCats, ih, importCategory_shops]

theorem getOrCreateProduct_shops (nm : String) (cat : Nat) (s : Store) :
    (getOrCreateProduct nm cat s).2.shops = s.shops := by
  unfold getOrCreateProduct; split <;> rfl

theorem upsertProductInfo_shops (sid ext pid : Nat) (mdl : String) (pr rrc qty : Nat)
    (s : Store) : (upsertProductInfo sid ext pid mdl pr rrc qty s).2.shops = s.shops := by
  unfold upsertProductInfo; split <;> rfl

theorem getOrCreateParameter_shops (nm : String) (s : Store) :
    (getOrCreateParameter nm s).2.shops = s.shops := by
  unfold getOrCreateParameter; split <;> rfl

theorem upsertProductParameter_shops (pid qid : Nat) (v : String) (s : Store) :
    (upsertProductParameter pid qid v s).shops = s.shops := by
  unfold upsertProductParameter; split <;> rfl

theorem importParam_shops (pid : Nat) (nv : String × String) (s : Store) :
    (importParam pid nv s).shops = s.shops := by
  unfold importParam
  rw [upsertProductParameter_shops, getOrCreateParameter_shops]

theorem importParams_shops (pid : Nat) (ps : List (String × String)) (s : Store) :
    (importParams pid ps s).shops = s.shops := by
  induction ps generalizing s with
  | nil => rfl
  | cons nv ps ih => rw [importParams, ih, importParam_shops]

theorem importItem_store_shops (sid : Nat) (g : FeedItem) (s : Store) :
    (importItem sid g s).store.shops = s.shops := by
  unfold importItem
  match g.name, g.category with
  | some nm, some cat =>
    match g.id, g.model, g.price, g.price_rrc, g.quantity with
    | some ext, some mdl, some pr, some rrc, some qty =>
      show (importParams _ _ _).shops = s.shops
      rw [importParams_shops, upsertProductInfo_shops, getOrCreateProduct_shops]
    | none, _, _, _, _ => exact getOrCreateProduct_shops nm cat s
    | some _, none, _, _, _ => exact getOrCreateProduct_shops nm cat s
    | some _, some _, none, _, _ => exact getOrCreateProduct_shops nm cat s
    | some _, some _, some _, none, _ => exact getOrCreateProduct_shops nm cat s
    | some _, some _, some _, some _, none => exact getOrCreateProduct_shops nm cat s
  | none, _ => rfl
  | some _, none => rfl

theorem importGoods_store_shops (sid : Nat) (gs : List FeedItem) (s : Store) :
    (importGoods sid gs s).store.shops = s.shops := by
  induction gs generalizing s with
  | nil => rfl
  | cons g gs ih =>
    rw [importGoods]
    cases hi : importItem sid g s with
    | ok s1 =>
      have := importItem_store_shops sid g s
      rw [hi] at this
      rw [ih s1, ← this]
      rfl
    | err s1 m =>
      have := importItem_store_shops sid g s
      rw [hi] at this
      exact this

/-! ### C7: one shop per owner -/

/-- Counterexample to C7: owner 1 imports a feed naming the shop `A`, then a
feed naming it `B`; both imports succeed and the store ends with two Shop
rows owned by principal 1. -/
theorem shop_per_owner_counterexample :
    (importFeed 1 docNameA emptyStore).failed = false ∧
    (importFeed 1 docNameB storeAfterA).failed = false ∧
    ((importFeed 1 docNameB storeAfterA).store.shops.filter
      (fun sh => sh.userId == 1)).length = 2 := by
  decide

/-- Claim C7 (amended): the import upserts the Shop by the joint key
`(name, owner)` — a run adds a Shop row exactly when the owner has no shop of
the feed's name, so an owner who renames the feed's shop gains a second row. -/
theorem importFeed_shop_upsert (uid : Nat) (d : FeedDoc) (s : Store) :
    (importFeed uid d s).store.shops.length =
      if (shopAt s uid d.shop).isSome then s.shops.length else s.shops.length + 1 := by
  unfold importFeed
  rw [importGoods_store_shops, importCats_shops]
  unfold getOrCreateShop
  cases hf : shopAt s uid d.shop with
  | some sh => simp
  | none => simp

/-! ### C2: no transaction around the import -/

/-- Claim C2 fails in the code: importing `badDoc` (second goods entry lacks
`price`) raises, yet the store is left with the shop, the category, both
products, and the first entry's ProductInfo and parameter rows — a partial
commit visible to every caller. -/
theorem import_partial_commit :
    (importFeed 1 badDoc emptyStore).failed = true ∧
    (importFeed 1 badDoc emptyStore).store ≠ emptyStore ∧
    (importFeed 1 badDoc emptyStore).store.shops.length = 1 ∧
    (importFeed 1 badDoc emptyStore).store.products.length = 2 ∧
    (importFeed 1 badDoc emptyStore).store.productInfos.length = 1 ∧
    (importFeed 1 badDoc emptyStore).store.productParameters.length = 1 := by
  decide

/-! ### Preservation of present keys by the import's writes -/

theorem find?_append_isSome {p : α → Bool} {l : List α}
    (h : (l.find? p).isSome = true) (t : List α) :
    ((l ++ t).find? p).isSome = true := by
  obtain ⟨x, hx⟩ := Option.isSome_iff_exists.mp h
  rw [find?_append_some hx]
  rfl

theorem preserves_refl (s : Store) : Preserves s s :=
  ⟨fun _ _ _ h => h, fun _ h => h, fun _ _ h => h, fun _ _ _ h => h,
   fun _ _ h => h, fun _ _ h => h⟩

theorem preserves_trans {s t u : Store} (h1 : Preserves s t) (h2 : Preserves t u) :
    Preserves s u :=
  ⟨fun a b c h => h2.1 a b c (h1.1 a b c h),
   fun a h => h2.2.1 a (h1.2.1 a h),
   fun a b h => h2.2.2.1 a b (h1.2.2.1 a b h),
   fun a b c h => h2.2.2.2.1 a b c (h1.2.2.2.1 a b c h),
   fun a b h => h2.2.2.2.2.1 a b (h1.2.2.2.2.1 a b h),
   fun a b h => h2.2.2.2.2.2 a b (h1.2.2.2.2.2 a b h)⟩

theorem getOrCreateShop_preserves (uid : Nat) (nm : String) (s : Store) :
    Preserves s (getOrCreateShop uid nm s).2 := by
  unfold getOrCreateShop
  cases hf : shopAt s uid nm with
  | some sh => exact preserves_refl s
  | none =>
    dsimp only
    refine ⟨?_, fun _ h => h, fun _ _ h => h, fun _ _ _ h => h,
      fun _ _ h => h, fun _ _ h => h⟩
    intro uid' nm' sh' h
    unfold shopAt at h ⊢
    exact find?_append_some h _

theorem importCategory_preserves (sid : Nat) (c : FeedCategory) (s : Store) :
    Preserves s (importCategory sid c s) := by
  unfold importCategory
  cases hf : s.categories.find? (fun k => k.id == c.id) with
  | some k0 =>
    dsimp only
    refine ⟨fun _ _ _ h => h, ?_, fun _ _ h => h, fun _ _ _ h => h,
      fun _ _ h => h, fun _ _ h => h⟩
    intro cid h
    unfold catPresent at h ⊢
    have hres := find?_updateFirst_isSome (fun k => k.id == c.id) (fun k => k.id == cid)
      (fun k => { k with shops := addShopId sid k.shops }) (fun k => rfl) s.categories
    exact hres.trans h
  | none =>
    dsimp only
    refine ⟨fun _ _ _ h => h, ?_, fun _ _ h => h, fun _ _ _ h => h,
      fun _ _ h => h, fun _ _ h => h⟩
    intro cid h
    unfold catPresent at h ⊢
    exact find?_append_isSome h _

theorem importCats_preserves (sid : Nat) (cs : List FeedCategory) (s : Store) :
    Preserves s (importCats sid cs s) := by
  induction cs generalizing s with
  | nil => exact preserves_refl s
  | cons c cs ih =>
    exact preserves_trans (importCategory_preserves sid c s) (ih _)

theorem getOrCreateProduct_preserves (nm : String) (cat : Nat) (s : Store) :
    Preserves s (getOrCreateProduct nm cat s).2 := by
  unfold getOrCreateProduct
  cases hf : s.products.find? (fun p => p.name == nm && p.categoryId == cat) with
  | some p => exact preserves_refl s
  | none =>
    dsimp only
    refine ⟨fun _ _ _ h => h, fun _ h => h, ?_, fun _ _ _ h => h,
      fun _ _ h => h, fun _ _ h => h⟩
    intro nm' cat' h
    unfold hasProduct at h ⊢
    exact find?_append_isSome h _

theorem upsertProductInfo_preserves (sid ext pid : Nat) (mdl : String)
    (pr rrc qty : Nat) (s : Store) :
    Preserves s (upsertProductInfo sid ext pid mdl pr rrc qty s).2 := by
  unfold upsertProductInfo
  cases hf : s.productInfos.find? (piKey sid ext) with
  | some old =>
    dsimp only
    refine ⟨fun _ _ _ h => h, fun _ h => h, fun _ _ h => h, ?_,
      fun _ _ h => h, fun _ _ h => h⟩
    intro sid' ext' pid' h
    unfold piIdAt at h ⊢
    have hres := find?_updateFirst_map (piKey sid ext) (piKey sid' ext')
      (fun x => { x with productId := pid, model := mdl, price := pr, priceRrc := rrc, quantity := qty })
      (fun x => x.id) (fun x => rfl) (fun x => rfl) s.productInfos
    exact hres.trans h
  | none =>
    dsimp only
    refine ⟨fun _ _ _ h => h, fun _ h => h, fun _ _ h => h, ?_,
      fun _ _ h => h, fun _ _ h => h⟩
    intro sid' ext' pid' h
    unfold piIdAt at h ⊢
    obtain ⟨x, hx, hid⟩ := Option.map_eq_some'.mp h
    rw [find?_append_some hx, Option.map_some', hid]

theorem getOrCreateParameter_preserves (nm : String) (s : Store) :
    Preserves s (getOrCreateParameter nm s).2 := by
  unfold getOrCreateParameter
  cases hf : s.parameters.find? (fun q => q.name == nm) with
  | some q => exact preserves_refl s
  | none =>
    dsimp only
    refine ⟨fun _ _ _ h => h, fun _ h => h, fun _ _ h => h, fun _ _ _ h => h,
      ?_, fun _ _ h => h⟩
    intro nm' qid h
    unfold paramIdAt at h ⊢
    obtain ⟨x, hx, hid⟩ := Option.map_eq_some'.mp h
    rw [find?_append_some hx, Option.map_some', hid]

theorem upsertProductParameter_preserves (pid qid : Nat) (v : String) (s : Store) :
    Preserves s (upsertProductParameter pid qid v s) := by
  unfold upsertProductParameter
  cases hf : s.productParameters.find? (ppKey pid qid) with
  | some x0 =>
    dsimp only
    refine ⟨fun _ _ _ h => h, fun _ h => h, fun _ _ h => h, fun _ _ _ h => h,
      fun _ _ h => h, ?_⟩
    intro pid' qid' h
    unfold hasPP at h ⊢
    have hres := find?_updateFirst_isSome (ppKey pid qid) (ppKey pid' qid')
      (fun x => { x with value := v }) (fun x => rfl) s.productParameters
    exact hres.trans h
  | none =>
    dsimp only
    refine ⟨fun _ _ _ h => h, fun _ h => h, fun _ _ h => h, fun _ _ _ h => h,
      fun _ _ h => h, ?_⟩
    intro pid' qid' h
    unfold hasPP at h ⊢
    exact find?_append_isSome h _

theorem importParam_preserves (pid : Nat) (nv : String × String) (s : Store) :
    Preserves s (importParam pid nv s) :=
  preserves_trans (getOrCreateParameter_preserves nv.1 s)
    (upsertProductParameter_preserves pid _ nv.2 _)

theorem importParams_preserves (pid : Nat) (ps : List (String × String)) (s : Store) :
    Preserves s (importParams pid ps s) := by
  induction ps generalizing s with
  | nil => exact preserves_refl s
  | cons nv ps ih =>
    exact preserves_trans (importParam_preserves pid nv s) (ih _)

theorem importItem_preserves (sid : Nat) (g : FeedItem) (s : Store) :
    Preserves s (importItem sid g s).store := by
  unfold importItem
  match g.name, g.category with
  | some nm, some cat =>
    match g.id, g.model, g.price, g.price_rrc, g.quantity with
    | some ext, some mdl, some pr, some rrc, some qty =>
      show Preserves s (importParams _ _ _)
      exact preserves_trans (getOrCreateProduct_preserves nm cat s)
        (preserves_trans (upsertProductInfo_preserves sid ext _ mdl pr rrc qty _)
          (importParams_preserves _ _ _))
    | none, _, _, _, _ => exact getOrCreateProduct_preserves nm cat s
    | some _, none, _, _, _ => exact getOrCreateProduct_preserves nm cat s
    | some _, some _, none, _, _ => exact getOrCreateProduct_preserves nm cat s
    | some _, some _, some _, none, _ => exact getOrCreateProduct_preserves nm cat s
    | some _, some _, some _, some _, none => exact getOrCreateProduct_preserves nm cat s
  | none, _ => exact preserves_refl s
  | some _, none => exact preserves_refl s

theorem importGoods_preserves (sid : Nat) (gs : List FeedItem) (s : Store) :
    Preserves s (importGoods sid gs s).store := by
  induction gs generalizing s with
  | nil => exact preserves_refl s
  | cons g gs ih =>
    rw [importGoods]
    cases hi : importItem sid g s with
    | ok s1 =>
      have hp := importItem_preserves sid g s
      rw [hi] at hp
      exact preserves_trans hp (ih s1)
    | err s1 m =>
      have hp := importItem_preserves sid g s
      rw [hi] at hp
      exact hp

/-! ### The first run establishes every key -/

theorem getOrCreateShop_establishes (uid : Nat) (nm : String) (s : Store) :
    shopAt (getOrCreateShop uid nm s).2 uid nm = some (getOrCreateShop uid nm s).1 := by
  unfold getOrCreateShop
  cases hf : shopAt s uid nm with
  | some sh => exact hf
  | none =>
    unfold shopAt at hf ⊢
    show List.find? (fun (x : Shop) => x.name == nm && x.userId == uid)
      (s.shops ++ [(⟨s.nextId, nm, uid, true⟩ : Shop)]) = some (⟨s.nextId, nm, uid, true⟩ : Shop)
    rw [find?_append_none hf, List.find?_cons_of_pos _ (by simp)]

theorem importCategory_establishes (sid : Nat) (c : FeedCategory) (s : Store) :
    catPresent (importCategory sid c s) c.id := by
  unfold importCategory
  cases hf : s.categories.find? (fun k => k.id == c.id) with
  | some k0 =>
    unfold catPresent
    show ((updateFirst (fun (k : Category) => k.id == c.id)
      (fun (k : Category) => { k with shops := addShopId sid k.shops }) s.categories).find?
        (fun k => k.id == c.id)).isSome = true
    rw [find?_updateFirst_self (fun (k : Category) => k.id == c.id)
      (fun (k : Category) => { k with shops := addShopId sid k.shops }) (fun k => rfl) hf]
    rfl
  | none =>
    unfold catPresent
    show ((s.categories ++ [(⟨c.id, c.name, [sid]⟩ : Category)]).find?
      (fun k => k.id == c.id)).isSome = true
    rw [find?_append_none hf, List.find?_cons_of_pos _ (by simp)]
    rfl

theorem importCats_establishes (sid : Nat) (cs : List FeedCategory) (s : Store) :
    ∀ c ∈ cs, catPresent (importCats sid cs s) c.id := by
  induction cs generalizing s with
  | nil => intro c hc; cases hc
  | cons c0 cs ih =>
    intro c hc
    rw [importCats]
    rcases List.mem_cons.mp hc with h | h
    · subst h
      exact (importCats_preserves sid cs _).2.1 _ (importCategory_establishes sid c s)
    · exact ih _ c h

theorem getOrCreateProduct_establishes (nm : String) (cat : Nat) (s : Store) :
    hasProduct (getOrCreateProduct nm cat s).2 nm cat := by
  unfold getOrCreateProduct
  cases hf : s.products.find? (fun p => p.name == nm && p.categoryId == cat) with
  | some p =>
    unfold hasProduct
    rw [hf]
    rfl
  | none =>
    unfold hasProduct
    show ((s.products ++ [(⟨s.nextId, nm, cat⟩ : Product)]).find?
      (fun p => p.name == nm && p.categoryId == cat)).isSome = true
    rw [find?_append_none hf, List.find?_cons_of_pos _ (by simp)]
    rfl

theorem upsertProductInfo_establishes (sid ext pid : Nat) (mdl : String)
    (pr rrc qty : Nat) (s : Store) :
    piIdAt (upsertProductInfo sid ext pid mdl pr rrc qty s).2 sid ext =
      some (upsertProductInfo sid ext pid mdl pr rrc qty s).1.id := by
  unfold upsertProductInfo
  cases hf : s.productInfos.find? (piKey sid ext) with
  | some old =>
    unfold piIdAt
    exact congrArg (Option.map (fun (x : ProductInfo) => x.id))
      (find?_updateFirst_self (piKey sid ext)
        (fun (x : ProductInfo) => { x with productId := pid, model := mdl, price := pr, priceRrc := rrc, quantity := qty })
        (fun x => rfl) hf)
  | none =>
    unfold piIdAt
    show Option.map (fun (x : ProductInfo) => x.id)
      ((s.productInfos ++ [(⟨s.nextId, sid, ext, pid, mdl, pr, rrc, qty⟩ : ProductInfo)]).find?
        (piKey sid ext)) = some s.nextId
    rw [find?_append_none hf, List.find?_cons_of_pos _ (by simp [piKey])]
    rfl

theorem getOrCreateParameter_establishes (nm : String) (s : Store) :
    paramIdAt (getOrCreateParameter nm s).2 nm = some (getOrCreateParameter nm s).1.id := by
  unfold getOrCreateParameter
  cases hf : s.parameters.find? (fun q => q.name == nm) with
  | some q =>
    unfold paramIdAt
    rw [hf]
    rfl
  | none =>
    unfold paramIdAt
    show Option.map (fun (q : Parameter) => q.id)
      ((s.parameters ++ [(⟨s.nextId, nm⟩ : Parameter)]).find? (fun q => q.name == nm)) = some s.nextId
    rw [find?_append_none hf, List.find?_cons_of_pos _ (by simp)]
    rfl

theorem upsertProductParameter_establishes (pid qid : Nat) (v : String) (s : Store) :
    hasPP (upsertProductParameter pid qid v s) pid qid := by
  unfold upsertProductParameter
  cases hf : s.productParameters.find? (ppKey pid qid) with
  | some x0 =>
    unfold hasPP
    show ((updateFirst (ppKey pid qid) (fun (x : ProductParameter) => { x with value := v })
      s.productParameters).find? (ppKey pid qid)).isSome = true
    rw [find?_updateFirst_self (ppKey pid qid)
      (fun (x : ProductParameter) => { x with value := v }) (fun x => rfl) hf]
    rfl
  | none =>
    unfold hasPP
    show ((s.productParameters ++ [(⟨s.nextId, pid, qid, v⟩ : ProductParameter)]).find?
      (ppKey pid qid)).isSome = true
    rw [find?_append_none hf, List.find?_cons_of_pos _ (by simp [ppKey])]
    rfl

theorem importParam_establishes (pid : Nat) (nv : String × String) (s : Store) :
    ∃ qid, paramIdAt (importParam pid nv s) nv.1 = some qid ∧
      hasPP (importParam pid nv s) pid qid := by
  refine ⟨(getOrCreateParameter nv.1 s).1.id, ?_, ?_⟩
  · exact (upsertProductParameter_preserves pid (getOrCreateParameter nv.1 s).1.id nv.2
      (getOrCreateParameter nv.1 s).2).2.2.2.2.1 _ _ (getOrCreateParameter_establishes nv.1 s)
  · exact upsertProductParameter_establishes pid (getOrCreateParameter nv.1 s).1.id nv.2
      (getOrCreateParameter nv.1 s).2

theorem importParams_establishes (pid : Nat) (ps : List (String × String)) (s : Store) :
    ∀ nv ∈ ps, ∃ qid, paramIdAt (importParams pid ps s) nv.1 = some qid ∧
      hasPP (importParams pid ps s) pid qid := by
  induction ps generalizing s with
  | nil => intro nv h; cases h
  | cons nv0 ps ih =>
    intro nv hmem
    rw [importParams]
    rcases List.mem_cons.mp hmem with h | h
    · subst h
      obtain ⟨qid, h1, h2⟩ := importParam_establishes pid nv s
      have hp := importParams_preserves pid ps (importParam pid nv s)
      exact ⟨qid, hp.2.2.2.2.1 _ _ h1, hp.2.2.2.2.2 _ _ h2⟩
    · exact ih _ nv h

theorem itemReady_mono {s t : Store} (hp : Preserves s t) {sid : Nat} {g : FeedItem}
    (h : ItemReady sid s g) : ItemReady sid t g := by
  obtain ⟨nm, cat, ext, mdl, pr, rrc, qty, h1, h2, h3, h4, h5, h6, h7, h8, pid, h9, h10⟩ := h
  refine ⟨nm, cat, ext, mdl, pr, rrc, qty, h1, h2, h3, h4, h5, h6, h7,
    hp.2.2.1 _ _ h8, pid, hp.2.2.2.1 _ _ _ h9, ?_⟩
  intro nv hnv
  obtain ⟨qid, ha, hb⟩ := h10 nv hnv
  exact ⟨qid, hp.2.2.2.2.1 _ _ ha, hp.2.2.2.2.2 _ _ hb⟩

theorem importItem_establishes (sid : Nat) (g : FeedItem) (s t : Store)
    (h : importItem sid g s = .ok t) : ItemReady sid t g := by
  unfold importItem at h
  cases hn : g.name with
  | none => rw [hn] at h; exact absurd h (by simp)
  | some nm =>
    cases hcat : g.category with
    | none => rw [hn, hcat] at h; exact absurd h (by simp)
    | some cat =>
      rw [hn, hcat] at h
      cases hid : g.id with
      | none => rw [hid] at h; exact absurd h (by simp)
      | some ext =>
        cases hm : g.model with
        | none => rw [hid, hm] at h; exact absurd h (by simp)
        | some mdl =>
          cases hp : g.price with
          | none => rw [hid, hm, hp] at h; exact absurd h (by simp)
          | some pr =>
            cases hr : g.price_rrc with
            | none => rw [hid, hm, hp, hr] at h; exact absurd h (by simp)
            | some rrc =>
              cases hq : g.quantity with
              | none => rw [hid, hm, hp, hr, hq] at h; exact absurd h (by simp)
              | some qty =>
                rw [hid, hm, hp, hr, hq] at h
                have ht : importParams
                    (upsertProductInfo sid ext (getOrCreateProduct nm cat s).1.id
                      mdl pr rrc qty (getOrCreateProduct nm cat s).2).1.id
                    g.parameters
                    (upsertProductInfo sid ext (getOrCreateProduct nm cat s).1.id
                      mdl pr rrc qty (getOrCreateProduct nm cat s).2).2 = t := by
                  have := h
                  simp only [ImpRes.ok.injEq] at this
                  exact this
                subst ht
                refine ⟨nm, cat, ext, mdl, pr, rrc, qty, hn, hcat, hid, hm, hp, hr, hq, ?_,
                  (upsertProductInfo sid ext (getOrCreateProduct nm cat s).1.id
                    mdl pr rrc qty (getOrCreateProduct nm cat s).2).1.id, ?_, ?_⟩
                · exact (importParams_preserves _ _ _).2.2.1 _ _
                    ((upsertProductInfo_preserves _ _ _ _ _ _ _ _).2.2.1 _ _
                      (getOrCreateProduct_establishes nm cat s))
                · exact (importParams_preserves _ _ _).2.2.2.1 _ _ _
                    (upsertProductInfo_establishes sid ext _ mdl pr rrc qty _)
                · exact importParams_establishes _ g.parameters _

theorem importGoods_establishes (sid : Nat) (gs : List FeedItem) (s t : Store)
    (h : importGoods sid gs s = .ok t) : ∀ g ∈ gs, ItemReady sid t g := by
  induction gs generalizing s with
  | nil => intro g hg; cases hg
  | cons g0 gs ih =>
    intro g hg
    rw [importGoods] at h
    cases hi : importItem sid g0 s with
    | err s1 m => rw [hi] at h; exact absurd h (by simp)
    | ok s1 =>
      rw [hi] at h
      dsimp only at h
      rcases List.mem_cons.mp hg with he | he
      · subst he
        have hready := importItem_establishes sid g s s1 hi
        have hpres := importGoods_preserves sid gs s1
        rw [h] at hpres
        exact itemReady_mono hpres hready
      · exact ih s1 h g he

/-! ### A second run finds every key and creates nothing -/

theorem getOrCreateShop_found_fst {s : Store} {uid : Nat} {nm : String} {sh : Shop}
    (h : shopAt s uid nm = some sh) : (getOrCreateShop uid nm s).1 = sh := by
  unfold getOrCreateShop
  rw [h]

theorem getOrCreateShop_found_snd {s : Store} {uid : Nat} {nm : String} {sh : Shop}
    (h : shopAt s uid nm = some sh) : (getOrCreateShop uid nm s).2 = s := by
  unfold getOrCreateShop
  rw [h]

theorem importCategory_counts {s : Store} {c : FeedCategory} (sid : Nat)
    (h : catPresent s c.id) : tableCounts (importCategory sid c s) = tableCounts s := by
  unfold catPresent at h
  obtain ⟨k0, hk⟩ := Option.isSome_iff_exists.mp h
  unfold importCategory
  rw [hk]
  simp [tableCounts, length_updateFirst]

theorem importCats_counts (sid : Nat) (cs : List FeedCategory) (s : Store)
    (h : ∀ c ∈ cs, catPresent s c.id) :
    tableCounts (importCats sid cs s) = tableCounts s := by
  induction cs generalizing s with
  | nil => rfl
  | cons c0 cs ih =>
    rw [importCats]
    have h0 := importCategory_counts sid (h c0 (List.mem_cons_self _ _))
    have hrest : ∀ c ∈ cs, catPresent (importCategory sid c0 s) c.id := by
      intro c hc
      exact (importCategory_preserves sid c0 s).2.1 _ (h c (List.mem_cons_of_mem _ hc))
    exact (ih _ hrest).trans h0

theorem getOrCreateProduct_found {s : Store} {nm : String} {cat : Nat}
    (h : hasProduct s nm cat) : (getOrCreateProduct nm cat s).2 = s := by
  unfold hasProduct at h
  obtain ⟨p, hp⟩ := Option.isSome_iff_exists.mp h
  unfold getOrCreateProduct
  rw [hp]

theorem upsertProductInfo_found {s : Store} {sid ext pid : Nat} (pid' : Nat)
    (mdl : String) (pr rrc qty : Nat) (h : piIdAt s sid ext = some pid) :
    (upsertProductInfo sid ext pid' mdl pr rrc qty s).1.id = pid ∧
    tableCounts (upsertProductInfo sid ext pid' mdl pr rrc qty s).2 = tableCounts s := by
  unfold piIdAt at h
  obtain ⟨old, hold, hid⟩ := Option.map_eq_some'.mp h
  unfold upsertProductInfo
  rw [hold]
  constructor
  · exact hid
  · simp [tableCounts, length_updateFirst]

theorem getOrCreateParameter_found {s : Store} {nm : String} {qid : Nat}
    (h : paramIdAt s nm = some qid) :
    (getOrCreateParameter nm s).2 = s ∧ (getOrCreateParameter nm s).1.id = qid := by
  unfold paramIdAt at h
  obtain ⟨q, hq, hid⟩ := Option.map_eq_some'.mp h
  unfold getOrCreateParameter
  rw [hq]
  exact ⟨rfl, hid⟩

theorem upsertProductParameter_counts {s : Store} {pid qid : Nat} (v : String)
    (h : hasPP s pid qid) :
    tableCounts (upsertProductParameter pid qid v s) = tableCounts s := by
  unfold hasPP at h
  obtain ⟨x0, hx⟩ := Option.isSome_iff_exists.mp h
  unfold upsertProductParameter
  rw [hx]
  simp [tableCounts, length_updateFirst]

theorem importParam_counts {s : Store} {pid : Nat} (nv : String × String)
    (h : ∃ qid, paramIdAt s nv.1 = some qid ∧ hasPP s pid qid) :
    tableCounts (importParam pid nv s) = tableCounts s := by
  obtain ⟨qid, hq, hpp⟩ := h
  have hf := getOrCreateParameter_found hq
  unfold importParam
  dsimp only
  rw [hf.1, hf.2]
  exact upsertProductParameter_counts nv.2 hpp

theorem importParams_counts (pid : Nat) (ps : List (String × String)) (s : Store)
    (h : ∀ nv ∈ ps, ∃ qid, paramIdAt s nv.1 = some qid ∧ hasPP s pid qid) :
    tableCounts (importParams pid ps s) = tableCounts s := by
  induction ps generalizing s with
  | nil => rfl
  | cons nv0 ps ih =>
    rw [importParams]
    have h0 := importParam_counts nv0 (h nv0 (List.mem_cons_self _ _))
    have hrest : ∀ nv ∈ ps, ∃ qid,
        paramIdAt (importParam pid nv0 s) nv.1 = some qid ∧
        hasPP (importParam pid nv0 s) pid qid := by
      intro nv hnv
      obtain ⟨qid, hq, hpp⟩ := h nv (List.mem_cons_of_mem _ hnv)
      have hp := importParam_preserves pid nv0 s
      exact ⟨qid, hp.2.2.2.2.1 _ _ hq, hp.2.2.2.2.2 _ _ hpp⟩
    exact (ih _ hrest).trans h0

theorem importItem_ready {sid : Nat} {g : FeedItem} {s : Store}
    (h : ItemReady sid s g) :
    ∃ t, importItem sid g s = .ok t ∧ tableCounts t = tableCounts s := by
  obtain ⟨nm, cat, ext, mdl, pr, rrc, qty, h1, h2, h3, h4, h5, h6, h7, h8, pid, h9, h10⟩ := h
  unfold importItem
  rw [h1, h2, h3, h4, h5, h6, h7]
  dsimp only
  have hprod := getOrCreateProduct_found h8
  rw [hprod]
  have hup := upsertProductInfo_found (getOrCreateProduct nm cat s).1.id mdl pr rrc qty h9
  refine ⟨_, rfl, ?_⟩
  have hparams : ∀ nv ∈ g.parameters, ∃ qid,
      paramIdAt (upsertProductInfo sid ext (getOrCreateProduct nm cat s).1.id
        mdl pr rrc qty s).2 nv.1 = some qid ∧
      hasPP (upsertProductInfo sid ext (getOrCreateProduct nm cat s).1.id
        mdl pr rrc qty s).2
        (upsertProductInfo sid ext (getOrCreateProduct nm cat s).1.id mdl pr rrc qty s).1.id
        qid := by
    intro nv hnv
    obtain ⟨qid, hq, hpp⟩ := h10 nv hnv
    have hp := upsertProductInfo_preserves sid ext (getOrCreateProduct nm cat s).1.id
      mdl pr rrc qty s
    rw [hup.1]
    exact ⟨qid, hp.2.2.2.2.1 _ _ hq, hp.2.2.2.2.2 _ _ hpp⟩
  exact (importParams_counts _ g.parameters _ hparams).trans hup.2

theorem importGoods_ready (sid : Nat) (gs : List FeedItem) (s : Store)
    (h : ∀ g ∈ gs, ItemReady sid s g) :
    ∃ t, importGoods sid gs s = .ok t ∧ tableCounts t = tableCounts s := by
  induction gs generalizing s with
  | nil => exact ⟨s, rfl, rfl⟩
  | cons g0 gs ih =>
    obtain ⟨s1, hok, hc1⟩ := importItem_ready (h g0 (List.mem_cons_self _ _))
    have hpres : Preserves s s1 := by
      have hp := importItem_preserves sid g0 s
      rw [hok] at hp
      exact hp
    have hrest : ∀ g ∈ gs, ItemReady sid s1 g := fun g hg =>
      itemReady_mono hpres (h g (List.mem_cons_of_mem _ hg))
    obtain ⟨t, hok2, hc2⟩ := ih s1 hrest
    refine ⟨t, ?_, hc2.trans hc1⟩
    rw [importGoods, hok]
    exact hok2

/-! ### C1: idempotence of the import -/

/-- Claim C1: re-running the import with the identical document on the store
a successful run produced succeeds again and creates no row in any of the six
catalog tables — the second run finds every Shop/Category/Product/ProductInfo/
Parameter/ProductParameter by its business key, so the final row counts equal
those after the single run. -/
theorem importFeed_idempotent (uid : Nat) (d : FeedDoc) (s s1 : Store)
    (h : importFeed uid d s = .ok s1) :
    ∃ s2, importFeed uid d s1 = .ok s2 ∧ tableCounts s2 = tableCounts s1 := by
  unfold importFeed at h
  have e1 := getOrCreateShop_establishes uid d.shop s
  have p1 := importCats_preserves (getOrCreateShop uid d.shop s).1.id d.categories
    (getOrCreateShop uid d.shop s).2
  have p2 := importGoods_preserves (getOrCreateShop uid d.shop s).1.id d.goods
    (importCats (getOrCreateShop uid d.shop s).1.id d.categories
      (getOrCreateShop uid d.shop s).2)
  rw [h] at p2
  have hshop : shopAt s1 uid d.shop = some (getOrCreateShop uid d.shop s).1 :=
    p2.1 _ _ _ (p1.1 _ _ _ e1)
  have hcats : ∀ c ∈ d.categories, catPresent s1 c.id := by
    intro c hc
    exact p2.2.1 _ (importCats_establishes _ d.categories _ c hc)
  have hgoods : ∀ g ∈ d.goods, ItemReady (getOrCreateShop uid d.shop s).1.id s1 g :=
    importGoods_establishes _ d.goods _ s1 h
  unfold importFeed
  rw [getOrCreateShop_found_fst hshop, getOrCreateShop_found_snd hshop]
  have hcatsCount := importCats_counts (getOrCreateShop uid d.shop s).1.id d.categories s1 hcats
  have hcp := importCats_preserves (getOrCreateShop uid d.shop s).1.id d.categories s1
  have hgoods2 : ∀ g ∈ d.goods,
      ItemReady (getOrCreateShop uid d.shop s).1.id
        (importCats (getOrCreateShop uid d.shop s).1.id d.categories s1) g :=
    fun g hg => itemReady_mono hcp (hgoods g hg)
  obtain ⟨s2, hok, hcnt⟩ := importGoods_ready _ d.goods _ hgoods2
  exact ⟨s2, hok, hcnt.trans hcatsCount⟩

/-- Witness for C1: re-importing the concrete demo feed over the store its
first import produced succeeds with unchanged row counts. -/
theorem importFeed_idempotent_witness :
    ∃ s2, importFeed 1 demoDoc storeAfterDemo = .ok s2 ∧
      tableCounts s2 = tableCounts storeAfterDemo :=
  importFeed_idempotent 1 demoDoc emptyStore storeAfterDemo (by decide)
